import Mathlib

/-!
Verification of the CCXT exchange adapter (`catalyst/exchange/ccxt/ccxt_exchange.py`).

Shallow embedding: Python strings are modelled as `List Char`, Python dicts as
association lists read with last-entry-wins lookup, numeric exchange values as `Rat`,
fallible Python code as `Except PyErr`.  Every definition is translated from the
source file; the few collaborators that live outside it (the symbol catalogs, the
`get_symbols` helper of the `Exchange` base class, `TradingPair` defaults) are
modelled from the spec and marked as such in their doc comments.
-/

namespace CCXTAdapter

/-- Python strings, modelled as lists of characters. -/
abbrev Str := List Char

/-- The kinds of Python exceptions the embedded code can raise. -/
inductive PyErr where
  /-- `InvalidHistoryFrequencyError` from `catalyst.exchange.exchange_errors`. -/
  | invalidFrequency
  /-- Python `ValueError` (e.g. from `int(...)` or an unparseable date). -/
  | valueError
  /-- Python `UnboundLocalError` (a local variable read before assignment). -/
  | unboundLocal
  /-- Python `IndexError` (list index out of range). -/
  | indexError
deriving DecidableEq, Repr

/-- Python `str.split(sep)` for a non-empty one-character separator:
`"a_b"` splits to `["a", "b"]`, the empty string splits to `[""]`. -/
def pySplit (sep : Char) : Str → List Str
  | [] => [[]]
  | c :: cs =>
    if c = sep then [] :: pySplit sep cs
    else
      match pySplit sep cs with
      | [] => [[c]]
      | p :: ps => (c :: p) :: ps

/-- Python `str.lower()` (ASCII, which is all the adapter's symbols use). -/
def pyLower (s : Str) : Str := s.map Char.toLower

/-- Python `str.upper()` (ASCII). -/
def pyUpper (s : Str) : Str := s.map Char.toUpper

/-- `get_symbol` (lines 61-63): split the internal symbol on `'_'` and join the
first two parts, uppercased, with `'/'`.  Fewer than two parts is a Python
`IndexError` on `parts[1]`. -/
def get_symbol (symbol : Str) : Except PyErr Str :=
  match pySplit '_' symbol with
  | p0 :: p1 :: _ => .ok (pyUpper p0 ++ '/' :: pyUpper p1)
  | _ => .error .indexError

/-- `get_catalyst_symbol` (lines 65-67): split the exchange-native symbol on `'/'`
and join the first two parts, lowercased, with `'_'`. -/
def get_catalyst_symbol (marketSymbol : Str) : Except PyErr Str :=
  match pySplit '/' marketSymbol with
  | p0 :: p1 :: _ => .ok (pyLower p0 ++ '_' :: pyLower p1)
  | _ => .error .indexError

/-- The characters matched by the second regex group `(m|M|d|D|h|H|T)` under
`re.IGNORECASE` (line 70): the case-insensitive flag also lets `T` match `t`. -/
def isUnitChar (c : Char) : Bool :=
  c == 'm' || c == 'M' || c == 'd' || c == 'D' || c == 'h' || c == 'H' ||
  c == 'T' || c == 't'

/-- Backtracking of `[0-9].*` against the tail of the input: the greedy `.*`
takes the longest prefix (containing no newline, which `.` does not match) that
leaves a unit character immediately after it.  Returns that prefix and the unit
character, or `none` when no split exists. -/
def greedySplit : Str → Option (Str × Char)
  | [] => none
  | c :: cs =>
    if c = '\n' then none
    else
      match greedySplit cs with
      | some (g, u) => some (c :: g, u)
      | none => if isUnitChar c then some ([], c) else none

/-- `re.match(r'([0-9].*)?(m|M|d|D|h|H|T)', freq, re.M | re.I)` (line 70),
returning `(group(1), group(2))` on success.  The match is anchored at the start
only; the optional first group requires a leading digit, and when it cannot be
completed the engine falls back to matching the unit group at position 0. -/
def regexMatch (s : Str) : Option (Option Str × Char) :=
  match s with
  | [] => none
  | c :: rest =>
    if c.isDigit then
      match greedySplit rest with
      | some (g, u) => some (some (c :: g), u)
      | none => none
    else if isUnitChar c then some (none, c)
    else none

/-- The ten decimal digit characters. -/
def digitChar : Nat → Char
  | 0 => '0' | 1 => '1' | 2 => '2' | 3 => '3' | 4 => '4'
  | 5 => '5' | 6 => '6' | 7 => '7' | 8 => '8' | _ => '9'

/-- Numeric value of a digit character. -/
def digitVal (c : Char) : Nat := c.toNat - 48

/-- Value of a decimal digit string. -/
def pyIntVal (g : Str) : Nat := g.foldl (fun acc c => 10 * acc + digitVal c) 0

/-- Python `int(g)` (line 72) for the strings group 1 can produce, which always
start with a digit: it succeeds exactly on all-digit strings and raises
`ValueError` otherwise.  (Python additionally tolerates surrounding whitespace
and single underscores between digits; no result below depends on those inputs.) -/
def pyInt (g : Str) : Except PyErr Nat :=
  if g ≠ [] ∧ g.all Char.isDigit then .ok (pyIntVal g) else .error .valueError

/-- Decimal rendering of a natural number (`'{}'.format(candle_size)`), written
with explicit fuel so that it evaluates by kernel reduction. -/
def natDigitsAux : Nat → Nat → Str
  | 0, _ => []
  | fuel + 1, n =>
    if n < 10 then [digitChar n]
    else natDigitsAux fuel (n / 10) ++ [digitChar (n % 10)]

/-- Decimal rendering of a natural number. -/
def natDigits (n : Nat) : Str := natDigitsAux (n + 1) n

/-- `get_timeframe` (lines 69-89): parse the frequency with the regex; no match
raises `InvalidHistoryFrequency`; `candle_size` is `int(group(1))` or 1; then the
unit branches.  A matched unit that satisfies none of the three conditions (only
lowercase `'t'`) leaves `timeframe` unassigned, so the `return` raises
`UnboundLocalError`. -/
def get_timeframe (freq : Str) : Except PyErr Str :=
  match regexMatch freq with
  | none => .error .invalidFrequency
  | some (g1, unit) =>
    match (match g1 with | none => Except.ok 1 | some g => pyInt g) with
    | .error e => .error e
    | .ok candle_size =>
      if unit.toLower = 'd' then .ok (natDigits candle_size ++ ['d'])
      else if unit.toLower = 'm' ∨ unit = 'T' then .ok (natDigits candle_size ++ ['m'])
      else if unit.toLower = 'h' ∨ unit = 'T' then .ok (natDigits candle_size ++ ['h'])
      else .error .unboundLocal

/-! ## Asset resolution and the asset table (lines 118-191) -/

/-- A catalog date value: either a date string the pandas parser accepts
(abstracted to the instant it denotes, in epoch milliseconds) or the literal
sentinel string `'N/A'`, which the parser rejects — the source's own
`!= 'N/A'` guards before `pd.to_datetime` on `end_daily`/`end_minute`
(lines 177-185) show the sentinel is not parseable. -/
inductive DateVal where
  | parseable (ms : Int)
  | na
deriving DecidableEq, Repr

/-- `pd.to_datetime(value, utc=True)` on a catalog date value. -/
def pd_to_datetime : DateVal → Except PyErr Int
  | .parseable t => .ok t
  | .na => .error .valueError

/-- A record of the symbol catalog (`symbol_map` entry).  Optional fields model
Python's `'field' in asset` presence checks. -/
structure AssetRec where
  symbol : Str
  asset_name : Option Str := none
  start_date : Option DateVal := none
  end_date : Option DateVal := none
  end_daily : Option DateVal := none
  end_minute : Option DateVal := none
  leverage : Option Rat := none
deriving DecidableEq, Repr

/-- A symbol catalog: a Python dict from market id to asset record, modelled as
an association list in insertion order. -/
abbrev Catalog := List (Str × AssetRec)

/-- Python dict lookup on an association list built in insertion order: a later
binding of the same key overwrites an earlier one. -/
def dictGet {α : Type} (m : List (Str × α)) (key : Str) : Option α :=
  match m with
  | [] => none
  | (k, v) :: rest =>
    match dictGet rest key with
    | some r => some r
    | none => if k = key then some v else none

/-- The dict comprehension `{k.lower(): v for k, v in symbol_map.items()}`
(line 127). -/
def lowerKeys (m : Catalog) : Catalog := m.map (fun kv => (pyLower kv.1, kv.2))

/-- `_fetch_symbol_map` (lines 118-122).  Modelled from the spec: the
loader `fetch_symbol_map` lives on the `Exchange` base class; the remote
("catalyst") and local catalogs are parameters, and `ExchangeSymbolsNotFound`
is caught and surfaced as `none`. -/
def fetch_symbol_map (remote locl : Option Catalog) : Bool → Option Catalog
  | true => locl
  | false => remote

/-- `_fetch_asset(market_id, is_local=True)` (lines 124-144), the base case of
the recursion. -/
def fetch_asset_local (remote locl : Option Catalog) (market_id : Str) :
    Option AssetRec × Bool :=
  match fetch_symbol_map remote locl true with
  | some m =>
    match dictGet (lowerKeys m) (pyLower market_id) with
    | some a => (some a, true)
    | none => (none, true)
  | none => (none, true)

/-- `_fetch_asset(market_id)` (lines 124-144): consult the remote catalog first;
on a missing catalog or a missed case-insensitive lookup, recurse once with
`is_local=True`. -/
def fetch_asset (remote locl : Option Catalog) (market_id : Str) :
    Option AssetRec × Bool :=
  match fetch_symbol_map remote locl false with
  | some m =>
    match dictGet (lowerKeys m) (pyLower market_id) with
    | some a => (some a, false)
    | none => fetch_asset_local remote locl market_id
  | none => fetch_asset_local remote locl market_id

/-- A raw market descriptor from `self.api.fetch_markets()`: the fields the
adapter reads are `id` and `symbol`. -/
structure RawMarket where
  id : Str
  symbol : Str
deriving DecidableEq, Repr

/-- The string `'local'`. -/
def localStr : Str := ['l', 'o', 'c', 'a', 'l']

/-- The string `'catalyst'`. -/
def catalystStr : Str := ['c', 'a', 't', 'a', 'l', 'y', 's', 't']

/-- The fields of `TradingPair` the adapter sets (modelled from the spec:
the constructor lives in `catalyst.assets._assets`; params it is not given keep
their defaults — dates unbounded/`none`, leverage 1.0, no display name). -/
structure TradingPair where
  exchange : Str
  data_source : Str
  exchange_symbol : Str
  symbol : Str
  asset_name : Option Str := none
  start_date : Option Int := none
  end_date : Option Int := none
  end_daily : Option Int := none
  end_minute : Option Int := none
  leverage : Rat := 1
deriving DecidableEq, Repr

/-- `pd.to_datetime(asset[f], utc=True) if f in asset else None`
(lines 163-169, used for `start_date` and `end_date` — note: no `'N/A'` guard). -/
def toDateOpt : Option DateVal → Except PyErr (Option Int)
  | none => .ok none
  | some d =>
    match pd_to_datetime d with
    | .ok t => .ok (some t)
    | .error e => .error e

/-- `pd.to_datetime(asset[f], utc=True) if f in asset and asset[f] != 'N/A'
else None` (lines 177-185, used for `end_daily` and `end_minute`). -/
def toDateOptNA : Option DateVal → Except PyErr (Option Int)
  | none => .ok none
  | some d =>
    if d = DateVal.na then .ok none
    else
      match pd_to_datetime d with
      | .ok t => .ok (some t)
      | .error e => .error e

/-- The four date conversions of the resolved branch of `load_assets`, in the
source's evaluation order (the interleaved `leverage`/`asset_name` assignments
cannot fail). -/
def resolved_dates (a : AssetRec) :
    Except PyErr (Option Int × Option Int × Option Int × Option Int) :=
  match toDateOpt a.start_date with
  | .error e => .error e
  | .ok sd =>
    match toDateOpt a.end_date with
    | .error e => .error e
    | .ok ed =>
      match toDateOptNA a.end_daily with
      | .error e => .error e
      | .ok edl =>
        match toDateOptNA a.end_minute with
        | .error e => .error e
        | .ok emn => .ok (sd, ed, edl, emn)

/-- The body of the `load_assets` loop for one market (lines 149-191): resolve
the asset, pick the `data_source` label, and build the `TradingPair` params —
carrying the catalog record over when resolved, synthesizing the symbol with
`get_catalyst_symbol` otherwise.  (`mixin_market_params`, an external helper,
adds exchange-specific market limits; modelled from the spec as not touching
the fields tracked here.) -/
def build_asset (name : Str) (remote locl : Option Catalog) (market : RawMarket) :
    Except PyErr TradingPair :=
  match fetch_asset remote locl market.id with
  | (some a, is_local) =>
    match resolved_dates a with
    | .error e => .error e
    | .ok (sd, ed, edl, emn) =>
      .ok { exchange := name
            data_source := if is_local then localStr else catalystStr
            exchange_symbol := market.id
            symbol := a.symbol
            asset_name := a.asset_name
            start_date := sd
            end_date := ed
            end_daily := edl
            end_minute := emn
            leverage := a.leverage.getD 1 }
  | (none, is_local) =>
    match get_catalyst_symbol market.symbol with
    | .error e => .error e
    | .ok sym =>
      .ok { exchange := name
            data_source := if is_local then localStr else catalystStr
            exchange_symbol := market.id
            symbol := sym }

/-- `load_assets` (lines 146-191): one `TradingPair` per raw market, keyed by
`market['id']` in `self.assets`.  The dict is modelled as the association list
of the insertions in loop order. -/
def load_assets (name : Str) (remote locl : Option Catalog) :
    List RawMarket → Except PyErr (List (Str × TradingPair))
  | [] => .ok []
  | market :: rest =>
    match build_asset name remote locl market with
    | .error e => .error e
    | .ok tp =>
      match load_assets name remote locl rest with
      | .error e => .error e
      | .ok tbl => .ok ((market.id, tp) :: tbl)

/-- The number of entries of the Python dict the association list models:
its number of distinct keys. -/
def pyDictSize (table : List (Str × TradingPair)) : Nat :=
  (table.map Prod.fst).dedup.length

/-- The case-insensitive lookup a single catalog performs on a market id, with
a missing catalog answering `none` (used to state resolution claims). -/
def catalogLookup (cat : Option Catalog) (market_id : Str) : Option AssetRec :=
  match cat with
  | none => none
  | some m => dictGet (lowerKeys m) (pyLower market_id)

/-! ## Market data normalization: candles (lines 91-116) -/

/-- A raw OHLCV row `[epoch_ms, open, high, low, close, volume]`. -/
structure OhlcvRow where
  ts : Int
  o : Rat
  h : Rat
  l : Rat
  c : Rat
  v : Rat
deriving DecidableEq, Repr

/-- A normalized candle (lines 108-115).  `last_traded` is
`pd.to_datetime(ohlcv[0], unit='ms', utc=True)`, modelled as the epoch-ms
instant itself. -/
structure Candle where
  last_traded : Int
  open_ : Rat
  high : Rat
  low : Rat
  close : Rat
  volume : Rat
deriving DecidableEq, Repr

/-- The per-row candle mapping of the `for ohlcv in ohlcvs` loop. -/
def rowToCandle (r : OhlcvRow) : Candle :=
  { last_traded := r.ts, open_ := r.o, high := r.h, low := r.l,
    close := r.c, volume := r.v }

/-- `self.get_symbols(assets)` — modelled from the spec: the helper lives on the
`Exchange` base class and maps the Symbol Codec over the assets' internal
symbols. -/
def get_symbols : List Str → Except PyErr (List Str)
  | [] => .ok []
  | s :: rest =>
    match get_symbol s with
    | .error e => .error e
    | .ok sym =>
      match get_symbols rest with
      | .error e => .error e
      | .ok syms => .ok (sym :: syms)

/-- `get_candles` (lines 91-116).  `api` is `self.api.fetch_ohlcv`, taking the
native symbol, the timeframe, `since` in epoch ms and the bar-count limit;
`start_sec` is `start_dt` as epoch seconds, so `ms = int(delta.total_seconds())
* 1000`.  Only `symbols[0]` is ever fetched; an empty asset list is an
`IndexError`. -/
def get_candles (api : Str → Str → Int → Option Int → List OhlcvRow)
    (freq : Str) (assets : List Str) (bar_count : Option Int) (start_sec : Int) :
    Except PyErr (List Candle) :=
  match get_symbols assets with
  | .error e => .error e
  | .ok symbols =>
    match get_timeframe freq with
    | .error e => .error e
    | .ok timeframe =>
      match symbols with
      | [] => .error .indexError
      | s0 :: _ => .ok ((api s0 timeframe (start_sec * 1000) bar_count).map rowToCandle)

/-! ## Market data normalization: order book (lines 239-261) -/

/-- An order-book side. -/
inductive Side where
  | bids
  | asks
deriving DecidableEq, Repr

/-- The `order_type` argument of `get_orderbook`. -/
inductive OBFilter where
  | all
  | bids
  | asks
deriving DecidableEq, Repr

/-- The raw snapshot `self.api.fetch_order_book` returned: a millisecond
timestamp and, per side, the exchange's `[price, size]` entries in the
exchange's order. -/
structure RawOrderBook where
  timestamp : Int
  bids : List (Rat × Rat)
  asks : List (Rat × Rat)
deriving DecidableEq, Repr

/-- One normalized order-book entry `{rate: float(entry[0]),
quantity: float(entry[1])}`; the raw values are already numeric, so the
`float(...)` casts preserve them. -/
structure OBEntry where
  rate : Rat
  quantity : Rat
deriving DecidableEq, Repr

/-- The normalized result: `last_traded` plus the sides the loop emitted. -/
structure OBResult where
  last_traded : Int
  bids : Option (List OBEntry) := none
  asks : Option (List OBEntry) := none
deriving DecidableEq, Repr

/-- `['bids', 'asks'] if order_type == 'all' else [order_type]` (line 248). -/
def ob_sides : OBFilter → List Side
  | .all => [.bids, .asks]
  | .bids => [.bids]
  | .asks => [.asks]

/-- `order_book[order_type]`. -/
def sideRaw (book : RawOrderBook) : Side → List (Rat × Rat)
  | .bids => book.bids
  | .asks => book.asks

/-- The inner entry loop (lines 254-259): map every raw entry of the side. -/
def obEntries (es : List (Rat × Rat)) : List OBEntry :=
  es.map (fun e => { rate := e.1, quantity := e.2 })

/-- `result[order_type] = [...]`. -/
def setSide (r : OBResult) : Side → List OBEntry → OBResult
  | .bids, l => { r with bids := some l }
  | .asks, l => { r with asks := some l }

/-- The `for index, order_type in enumerate(order_types)` loop (lines 250-259):
the break condition `limit is not None and index > limit - 1` compares the
side index — not an entry count — against the depth limit. -/
def obLoop (book : RawOrderBook) (limit : Option Int) :
    Nat → List Side → OBResult → OBResult
  | _, [], r => r
  | index, ot :: rest, r =>
    match limit with
    | some l =>
      if (index : Int) > l - 1 then r
      else obLoop book limit (index + 1) rest (setSide r ot (obEntries (sideRaw book ot)))
    | none => obLoop book limit (index + 1) rest (setSide r ot (obEntries (sideRaw book ot)))

/-- `get_orderbook` (lines 239-261), from the fetched snapshot on: the depth
limit is also forwarded to the exchange as `params['depth']`, but the
normalization itself only runs the loop above over the requested sides. -/
def get_orderbook_result (book : RawOrderBook) (order_type : OBFilter)
    (limit : Option Int) : OBResult :=
  obLoop book limit 0 (ob_sides order_type) { last_traded := book.timestamp }

/-! ## Specification-side definitions -/

/-- The frequency grammar as the spec words it: an optional positive integer
magnitude (all digits, value > 0) followed by exactly one unit letter,
case-insensitive. -/
def specGrammarB (s : Str) : Bool :=
  match s.reverse with
  | [] => false
  | u :: restRev =>
    isUnitChar u &&
      (restRev.isEmpty ||
        (restRev.reverse.all Char.isDigit && decide (0 < pyIntVal restRev.reverse)))

/-! ## Lemmas about splitting and case mapping -/

theorem pySplit_eq_single {sep : Char} {a : Str} (h : sep ∉ a) :
    pySplit sep a = [a] := by
  induction a with
  | nil => rfl
  | cons c cs ih =>
    have hc : ¬c = sep := by rintro rfl; exact h (List.mem_cons_self _ _)
    have hcs : sep ∉ cs := fun hm => h (List.mem_cons_of_mem _ hm)
    simp [pySplit, hc, ih hcs]

theorem pySplit_append {sep : Char} {a : Str} (b : Str) (h : sep ∉ a) :
    pySplit sep (a ++ sep :: b) = a :: pySplit sep b := by
  induction a with
  | nil => simp [pySplit]
  | cons c cs ih =>
    have hc : ¬c = sep := by rintro rfl; exact h (List.mem_cons_self _ _)
    have hcs : sep ∉ cs := fun hm => h (List.mem_cons_of_mem _ hm)
    simp [pySplit, hc, ih hcs]

theorem pyLower_pyUpper {a : Str} (h : ∀ c ∈ a, (Char.toUpper c).toLower = c) :
    pyLower (pyUpper a) = a := by
  induction a with
  | nil => rfl
  | cons c cs ih =>
    have h1 := h c (List.mem_cons_self _ _)
    have h2 : ∀ x ∈ cs, (Char.toUpper x).toLower = x :=
      fun x hx => h x (List.mem_cons_of_mem _ hx)
    simp [pyLower, pyUpper] at ih ⊢
    exact ⟨h1, ih h2⟩

theorem slash_not_mem_upper {a : Str} (h : ∀ c ∈ a, Char.toUpper c ≠ '/') :
    '/' ∉ pyUpper a := by
  intro hm
  rcases List.mem_map.mp hm with ⟨c, hc, he⟩
  exact h c hc he

/-! ## Claim theorems: symbol codec and timeframe translator -/

/-- Claim C7: for every well-formed internal symbol with exactly one `'_'`
separator — written `a ++ '_' :: b` with `'_'` in neither part, every character
stable under uppercasing-then-lowercasing, and no character uppercasing to the
native separator `'/'` — converting to the native `BASE/QUOTE` form with
`get_symbol` and back with `get_catalyst_symbol` returns the original symbol. -/
theorem ccxt_symbol_roundtrip (a b : Str)
    (h1 : '_' ∉ a) (h2 : '_' ∉ b)
    (h3 : ∀ c ∈ a, (Char.toUpper c).toLower = c ∧ Char.toUpper c ≠ '/')
    (h4 : ∀ c ∈ b, (Char.toUpper c).toLower = c ∧ Char.toUpper c ≠ '/') :
    (get_symbol (a ++ '_' :: b)).bind get_catalyst_symbol
      = Except.ok (a ++ '_' :: b) := by
  have hsplit1 : pySplit '_' (a ++ '_' :: b) = [a, b] := by
    rw [pySplit_append b h1, pySplit_eq_single h2]
  have hupA : '/' ∉ pyUpper a := slash_not_mem_upper (fun c hc => (h3 c hc).2)
  have hupB : '/' ∉ pyUpper b := slash_not_mem_upper (fun c hc => (h4 c hc).2)
  have hsplit2 : pySplit '/' (pyUpper a ++ '/' :: pyUpper b)
      = [pyUpper a, pyUpper b] := by
    rw [pySplit_append _ hupA, pySplit_eq_single hupB]
  unfold get_symbol
  rw [hsplit1]
  show get_catalyst_symbol (pyUpper a ++ '/' :: pyUpper b) = _
  unfold get_catalyst_symbol
  rw [hsplit2]
  show Except.ok (pyLower (pyUpper a) ++ '_' :: pyLower (pyUpper b)) = _
  rw [pyLower_pyUpper (fun c hc => (h3 c hc).1),
    pyLower_pyUpper (fun c hc => (h4 c hc).1)]

/-- Witness for C7 at the internal symbol `btc_usd`. -/
theorem ccxt_symbol_roundtrip_witness :
    (get_symbol (['b', 't', 'c'] ++ '_' :: ['u', 's', 'd'])).bind get_catalyst_symbol
      = Except.ok (['b', 't', 'c'] ++ '_' :: ['u', 's', 'd']) :=
  ccxt_symbol_roundtrip ['b', 't', 'c'] ['u', 's', 'd']
    (by decide) (by decide) (by decide) (by decide)

/-- Claim C2 (code bug): the grammar is case-insensitive, so lowercase `'t'` is
accepted by the parser, but every unit branch then misses it (the `T` checks are
case-sensitive), so `get_timeframe` raises `UnboundLocalError` instead of
returning `"1m"`; uppercase inputs behave as the claim says (`T` means minute,
`H` means hour). -/
theorem ccxt_timeframe_lowercase_t_unbound :
    specGrammarB ['t'] = true ∧
    get_timeframe ['t'] = Except.error PyErr.unboundLocal ∧
    get_timeframe ['5', 't'] = Except.error PyErr.unboundLocal ∧
    get_timeframe ['T'] = Except.ok ['1', 'm'] ∧
    get_timeframe ['H'] = Except.ok ['1', 'h'] ∧
    get_timeframe ['5', 'm'] = Except.ok ['5', 'm'] :=
  ⟨rfl, rfl, rfl, rfl, rfl, rfl⟩

/-- Counterexample to claim C6: `"m5"` does not match the frequency grammar
(the unit letter is not last), yet `get_timeframe` does not fail at all — the
regex is matched as a prefix, so it returns `"1m"`. -/
theorem ccxt_timeframe_m5_counterexample :
    specGrammarB ['m', '5'] = false ∧
    get_timeframe ['m', '5'] = Except.ok ['1', 'm'] :=
  ⟨rfl, rfl⟩

theorem pyInt_ne_invalid (g : Str) : pyInt g ≠ Except.error PyErr.invalidFrequency := by
  unfold pyInt
  split <;> simp

theorem timeframe_branches_ne_invalid (n : Nat) (u : Char) :
    (if u.toLower = 'd' then Except.ok (natDigits n ++ ['d'])
     else if u.toLower = 'm' ∨ u = 'T' then Except.ok (natDigits n ++ ['m'])
     else if u.toLower = 'h' ∨ u = 'T' then Except.ok (natDigits n ++ ['h'])
     else Except.error PyErr.unboundLocal)
      ≠ Except.error PyErr.invalidFrequency := by
  intro h
  split at h
  · exact Except.noConfusion h
  · split at h
    · exact Except.noConfusion h
    · split at h
      · exact Except.noConfusion h
      · injection h with h2
        exact PyErr.noConfusion h2

/-- Claim C6 as amended: `get_timeframe` fails with `InvalidFrequency` exactly
when the pattern finds no match at the start of the input — the first character
is neither a unit letter nor a digit that is later followed by a unit letter.
Non-grammar inputs that extend a match with trailing text are accepted via
prefix matching, and a matched magnitude group containing non-digits raises
`ValueError`, so `InvalidFrequency` is characterized by `regexMatch` alone. -/
theorem ccxt_invalid_frequency_iff_no_match (s : Str) :
    get_timeframe s = Except.error PyErr.invalidFrequency ↔ regexMatch s = none := by
  constructor
  · intro h
    by_contra hne
    rcases hm : regexMatch s with _ | ⟨g1, u⟩
    · exact hne hm
    · unfold get_timeframe at h
      rw [hm] at h
      dsimp only at h
      rcases hcs : (match g1 with | none => Except.ok 1 | some g => pyInt g)
          with e | n
      · rw [hcs] at h
        dsimp only at h
        simp only [Except.error.injEq] at h
        subst h
        cases g1 with
        | none => simp at hcs
        | some g => exact pyInt_ne_invalid g hcs
      · rw [hcs] at h
        dsimp only at h
        exact timeframe_branches_ne_invalid n u h
  · intro hm
    unfold get_timeframe
    rw [hm]

/-! ## Decimal rendering lemmas (for idempotence of the translator) -/

theorem digitVal_digitChar {k : Nat} (h : k < 10) : digitVal (digitChar k) = k := by
  interval_cases k <;> rfl

theorem isDigit_digitChar {k : Nat} (h : k < 10) : (digitChar k).isDigit = true := by
  interval_cases k <;> rfl

theorem pyIntVal_append_digit (xs : Str) (c : Char) :
    pyIntVal (xs ++ [c]) = 10 * pyIntVal xs + digitVal c := by
  simp [pyIntVal, List.foldl_append]

theorem natDigitsAux_val : ∀ fuel n, n < fuel → pyIntVal (natDigitsAux fuel n) = n := by
  intro fuel
  induction fuel with
  | zero => intro n h; omega
  | succ fuel ih =>
    intro n h
    unfold natDigitsAux
    by_cases h10 : n < 10
    · rw [if_pos h10]
      show pyIntVal [digitChar n] = n
      simp [pyIntVal, digitVal_digitChar h10]
    · rw [if_neg h10]
      have hlt : n / 10 < n := Nat.div_lt_self (by omega) (by omega)
      rw [pyIntVal_append_digit, ih (n / 10) (by omega),
        digitVal_digitChar (Nat.mod_lt n (by omega))]
      omega

theorem natDigitsAux_all_digits :
    ∀ fuel n, n < fuel → ∀ c ∈ natDigitsAux fuel n, c.isDigit = true := by
  intro fuel
  induction fuel with
  | zero => intro n h; omega
  | succ fuel ih =>
    intro n h c hc
    unfold natDigitsAux at hc
    by_cases h10 : n < 10
    · rw [if_pos h10] at hc
      rcases List.mem_singleton.mp hc with rfl
      exact isDigit_digitChar h10
    · rw [if_neg h10] at hc
      have hlt : n / 10 < n := Nat.div_lt_self (by omega) (by omega)
      rcases List.mem_append.mp hc with hc1 | hc2
      · exact ih (n / 10) (by omega) c hc1
      · rcases List.mem_singleton.mp hc2 with rfl
        exact isDigit_digitChar (Nat.mod_lt n (by omega))

theorem natDigitsAux_ne_nil : ∀ fuel n, n < fuel → natDigitsAux fuel n ≠ [] := by
  intro fuel
  induction fuel with
  | zero => intro n h; omega
  | succ fuel ih =>
    intro n h
    unfold natDigitsAux
    by_cases h10 : n < 10
    · rw [if_pos h10]; simp
    · rw [if_neg h10]; simp

theorem natDigits_all_digits (n : Nat) : ∀ c ∈ natDigits n, c.isDigit = true :=
  natDigitsAux_all_digits (n + 1) n (Nat.lt_succ_self n)

theorem natDigits_ne_nil (n : Nat) : natDigits n ≠ [] :=
  natDigitsAux_ne_nil (n + 1) n (Nat.lt_succ_self n)

theorem natDigits_val (n : Nat) : pyIntVal (natDigits n) = n :=
  natDigitsAux_val (n + 1) n (Nat.lt_succ_self n)

theorem pyInt_natDigits (n : Nat) : pyInt (natDigits n) = Except.ok n := by
  unfold pyInt
  rw [if_pos]
  · rw [natDigits_val n]
  · exact ⟨natDigits_ne_nil n, List.all_eq_true.mpr (natDigits_all_digits n)⟩

theorem digit_ne_newline {c : Char} (h : c.isDigit = true) : c ≠ '\n' := by
  rintro rfl
  exact absurd h (by decide)

theorem digit_not_unit {c : Char} (h : c.isDigit = true) : isUnitChar c = false := by
  rcases hq : isUnitChar c with _ | _
  · rfl
  · exfalso
    unfold isUnitChar at hq
    simp only [Bool.or_eq_true, beq_iff_eq] at hq
    rcases hq with ((((((rfl | rfl) | rfl) | rfl) | rfl) | rfl) | rfl) | rfl <;>
      exact absurd h (by decide)

theorem greedySplit_digits_unit {ds : Str} {u : Char}
    (hds : ∀ c ∈ ds, c.isDigit = true) (hu : isUnitChar u = true) (hnl : u ≠ '\n') :
    greedySplit (ds ++ [u]) = some (ds, u) := by
  induction ds with
  | nil =>
    show greedySplit [u] = some ([], u)
    unfold greedySplit
    rw [if_neg hnl]
    show (if isUnitChar u then some ([], u) else none) = some ([], u)
    rw [if_pos hu]
  | cons d ds ih =>
    have hd := hds d (List.mem_cons_self _ _)
    have hrest : ∀ c ∈ ds, c.isDigit = true :=
      fun c hc => hds c (List.mem_cons_of_mem _ hc)
    show greedySplit (d :: (ds ++ [u])) = some (d :: ds, u)
    unfold greedySplit
    rw [if_neg (digit_ne_newline hd), ih hrest]

/-- Re-translating a value already in the native vocabulary
`"{digits}{m|h|d}"` returns it unchanged. -/
theorem get_timeframe_native (n : Nat) (u : Char)
    (hu : u = 'm' ∨ u = 'h' ∨ u = 'd') :
    get_timeframe (natDigits n ++ [u]) = Except.ok (natDigits n ++ [u]) := by
  have hunit : isUnitChar u = true := by
    rcases hu with rfl | rfl | rfl <;> rfl
  have hnl : u ≠ '\n' := by
    rcases hu with rfl | rfl | rfl <;> decide
  rcases hnd : natDigits n with _ | ⟨d, ds⟩
  · exact absurd hnd (natDigits_ne_nil n)
  · have hall : ∀ c ∈ d :: ds, c.isDigit = true := by
      rw [← hnd]; exact natDigits_all_digits n
    have hd : d.isDigit = true := hall d (List.mem_cons_self _ _)
    have hds : ∀ c ∈ ds, c.isDigit = true :=
      fun c hc => hall c (List.mem_cons_of_mem _ hc)
    have hmatch : regexMatch (natDigits n ++ [u]) = some (some (natDigits n), u) := by
      rw [hnd]
      show regexMatch (d :: (ds ++ [u])) = some (some (d :: ds), u)
      unfold regexMatch
      dsimp only
      rw [if_pos hd, greedySplit_digits_unit hds hunit hnl]
    unfold get_timeframe
    rw [← hnd, hmatch]
    dsimp only
    rw [pyInt_natDigits n]
    dsimp only
    rcases hu with rfl | rfl | rfl
    · rw [if_neg (by decide), if_pos (Or.inl (by decide))]
    · rw [if_neg (by decide), if_neg (by decide), if_pos (Or.inl (by decide))]
    · rw [if_pos (by decide)]

/-- Claim C8: `get_timeframe` is idempotent on its output vocabulary — whenever
it succeeds with value `v`, translating `v` again succeeds with the same `v`. -/
theorem ccxt_timeframe_idempotent (f v : Str)
    (h : get_timeframe f = Except.ok v) : get_timeframe v = Except.ok v := by
  unfold get_timeframe at h
  rcases hm : regexMatch f with _ | ⟨g1, u⟩
  · rw [hm] at h
    exact Except.noConfusion h
  · rw [hm] at h
    dsimp only at h
    rcases hcs : (match g1 with | none => Except.ok 1 | some g => pyInt g)
        with e | n
    · rw [hcs] at h
      dsimp only at h
      exact Except.noConfusion h
    · rw [hcs] at h
      dsimp only at h
      split at h
      · injection h with h2
        subst h2
        exact get_timeframe_native n 'd' (by tauto)
      · split at h
        · injection h with h2
          subst h2
          exact get_timeframe_native n 'm' (by tauto)
        · split at h
          · injection h with h2
            subst h2
            exact get_timeframe_native n 'h' (by tauto)
          · exact Except.noConfusion h

/-- Witness for C8: `"H"` translates to `"1h"`, and `"1h"` re-translates to
itself. -/
theorem ccxt_timeframe_idempotent_witness :
    get_timeframe ['1', 'h'] = Except.ok ['1', 'h'] :=
  ccxt_timeframe_idempotent ['H'] ['1', 'h'] rfl

/-! ## Claim theorem: order book -/

/-- Claim C1 (code bug): on the claim's own example — side filter `bids`,
depth 2, raw bids `[[100,1],[99,2],[98,3]]` — the normalizer returns all three
mapped entries, not two: the `limit` check compares the side index against the
depth and breaks the loop over sides, so entry lists are never truncated.  The
same check silently drops the whole `asks` side for filter `all` with depth 1. -/
theorem ccxt_orderbook_no_entry_truncation :
    get_orderbook_result
        { timestamp := 0, bids := [(100, 1), (99, 2), (98, 3)], asks := [] }
        OBFilter.bids (some 2)
      = { last_traded := 0,
          bids := some [{ rate := 100, quantity := 1 }, { rate := 99, quantity := 2 },
                        { rate := 98, quantity := 3 }],
          asks := none } ∧
    get_orderbook_result
        { timestamp := 0, bids := [(100, 1), (99, 2), (98, 3)], asks := [(101, 4)] }
        OBFilter.all (some 1)
      = { last_traded := 0,
          bids := some [{ rate := 100, quantity := 1 }, { rate := 99, quantity := 2 },
                        { rate := 98, quantity := 3 }],
          asks := none } :=
  ⟨rfl, rfl⟩

/-! ## Lemmas about the asset resolver and `load_assets` -/

theorem fetch_asset_remote_hit {remote locl : Option Catalog} {id : Str} {a : AssetRec}
    (h : catalogLookup remote id = some a) :
    fetch_asset remote locl id = (some a, false) := by
  cases remote with
  | none => exact absurd h (by simp [catalogLookup])
  | some m =>
    unfold catalogLookup at h
    dsimp only at h
    unfold fetch_asset
    dsimp only [fetch_symbol_map]
    rw [h]

theorem fetch_asset_local_hit {remote locl : Option Catalog} {id : Str} {a : AssetRec}
    (hr : catalogLookup remote id = none) (hl : catalogLookup locl id = some a) :
    fetch_asset remote locl id = (some a, true) := by
  have hloc : fetch_asset_local remote locl id = (some a, true) := by
    cases locl with
    | none => exact absurd hl (by simp [catalogLookup])
    | some m =>
      unfold catalogLookup at hl
      dsimp only at hl
      unfold fetch_asset_local
      dsimp only [fetch_symbol_map]
      rw [hl]
  cases remote with
  | none => exact hloc
  | some m =>
    unfold catalogLookup at hr
    dsimp only at hr
    unfold fetch_asset
    dsimp only [fetch_symbol_map]
    rw [hr]
    exact hloc

theorem fetch_asset_miss {remote locl : Option Catalog} {id : Str}
    (hr : catalogLookup remote id = none) (hl : catalogLookup locl id = none) :
    fetch_asset remote locl id = (none, true) := by
  have hloc : fetch_asset_local remote locl id = (none, true) := by
    cases locl with
    | none => rfl
    | some m =>
      unfold catalogLookup at hl
      dsimp only at hl
      unfold fetch_asset_local
      dsimp only [fetch_symbol_map]
      rw [hl]
  cases remote with
  | none => exact hloc
  | some m =>
    unfold catalogLookup at hr
    dsimp only at hr
    unfold fetch_asset
    dsimp only [fetch_symbol_map]
    rw [hr]
    exact hloc

theorem build_asset_unresolved {name : Str} {remote locl : Option Catalog}
    {market : RawMarket} {p0 p1 : Str} {ps : List Str}
    (hf : fetch_asset remote locl market.id = (none, true))
    (hsplit : pySplit '/' market.symbol = p0 :: p1 :: ps) :
    build_asset name remote locl market
      = Except.ok { exchange := name, data_source := localStr,
                    exchange_symbol := market.id,
                    symbol := pyLower p0 ++ '_' :: pyLower p1 } := by
  unfold build_asset
  rw [hf]
  dsimp only
  unfold get_catalyst_symbol
  rw [hsplit]
  rfl

theorem load_assets_append_mem {name : Str} {remote locl : Option Catalog}
    {market : RawMarket} {tp : TradingPair} :
    ∀ (ms1 ms2 : List RawMarket) (table : List (Str × TradingPair)),
      load_assets name remote locl (ms1 ++ market :: ms2) = Except.ok table →
      build_asset name remote locl market = Except.ok tp →
      (market.id, tp) ∈ table := by
  intro ms1
  induction ms1 with
  | nil =>
    intro ms2 table h hb
    rw [List.nil_append] at h
    unfold load_assets at h
    rw [hb] at h
    dsimp only at h
    rcases hr : load_assets name remote locl ms2 with e | tbl <;> rw [hr] at h <;>
      dsimp only at h
    · exact Except.noConfusion h
    · injection h with h2
      subst h2
      exact List.mem_cons_self _ _
  | cons x xs ih =>
    intro ms2 table h hb
    rw [List.cons_append] at h
    unfold load_assets at h
    rcases hbx : build_asset name remote locl x with e | tpx <;> rw [hbx] at h <;>
      dsimp only at h
    · exact Except.noConfusion h
    · rcases hr : load_assets name remote locl (xs ++ market :: ms2) with e | tbl <;>
        rw [hr] at h <;> dsimp only at h
      · exact Except.noConfusion h
      · injection h with h2
        subst h2
        exact List.mem_cons_of_mem _ (ih ms2 tbl hr hb)

/-! ## Claim theorem: asset resolution (C3) -/

/-- Claim C3: a market id found (case-insensitively) in the remote catalog
resolves to that entry with `is_local = false` (data source `'catalyst'`); a
market id missed by the remote catalog — or whose remote catalog is missing —
but found locally resolves to the local entry with `is_local = true`; one
missed by both resolves to `(none, true)`, and asset-table construction still
produces the synthesized entry for that market: symbol split on `'/'`,
lowercased, rejoined with `'_'`, with `data_source = 'local'`.  A missing
catalog is a not-found outcome by construction (`fetch_asset` is total). -/
theorem ccxt_asset_resolution (name : Str) (remote locl : Option Catalog)
    (market : RawMarket) :
    (∀ a, catalogLookup remote market.id = some a →
      fetch_asset remote locl market.id = (some a, false)) ∧
    (catalogLookup remote market.id = none →
      ∀ a, catalogLookup locl market.id = some a →
        fetch_asset remote locl market.id = (some a, true)) ∧
    (catalogLookup remote market.id = none →
      catalogLookup locl market.id = none →
        fetch_asset remote locl market.id = (none, true) ∧
        ∀ (ms1 ms2 : List RawMarket) (table : List (Str × TradingPair))
          (p0 p1 : Str) (ps : List Str),
          load_assets name remote locl (ms1 ++ market :: ms2) = Except.ok table →
          pySplit '/' market.symbol = p0 :: p1 :: ps →
          ((market.id,
            { exchange := name, data_source := localStr,
              exchange_symbol := market.id,
              symbol := pyLower p0 ++ '_' :: pyLower p1 }) : Str × TradingPair)
            ∈ table) := by
  refine ⟨fun a h => fetch_asset_remote_hit h,
    fun hr a hl => fetch_asset_local_hit hr hl,
    fun hr hl => ⟨fetch_asset_miss hr hl, ?_⟩⟩
  intro ms1 ms2 table p0 p1 ps h hsplit
  exact load_assets_append_mem ms1 ms2 table h
    (build_asset_unresolved (fetch_asset_miss hr hl) hsplit)

/-- Witness for C3, exercising the remote-hit and the both-miss/synthesized
branches on concrete catalogs and markets. -/
theorem ccxt_asset_resolution_witness :
    fetch_asset (some [(['B', 'T', 'C'], { symbol := ['x'] })]) none ['b', 't', 'c']
      = (some { symbol := ['x'] }, false) ∧
    ((['E', 'T', 'H'] : Str),
      ({ exchange := ['g'], data_source := localStr,
         exchange_symbol := ['E', 'T', 'H'],
         symbol := pyLower ['E', 'T', 'H'] ++ '_' :: pyLower ['B', 'T', 'C'] } :
        TradingPair))
      ∈ [((['E', 'T', 'H'] : Str),
          ({ exchange := ['g'], data_source := localStr,
             exchange_symbol := ['E', 'T', 'H'],
             symbol := ['e', 't', 'h', '_', 'b', 't', 'c'] } : TradingPair))] :=
  ⟨(ccxt_asset_resolution ['g'] (some [(['B', 'T', 'C'], { symbol := ['x'] })]) none
      { id := ['b', 't', 'c'], symbol := ['x'] }).1 { symbol := ['x'] } rfl,
   ((ccxt_asset_resolution ['g'] none none
      { id := ['E', 'T', 'H'], symbol := ['E', 'T', 'H', '/', 'B', 'T', 'C'] }).2.2
      rfl rfl).2 [] [] _ ['E', 'T', 'H'] ['B', 'T', 'C'] [] rfl rfl⟩

/-! ## Date carry-over lemmas (C4, C5) -/

/-- The value the resolved branch stores for a date field that does not raise:
a parseable value becomes its instant, an absent or `'N/A'` value becomes
`None`. -/
def dateValOpt : Option DateVal → Option Int
  | some (.parseable t) => some t
  | _ => none

theorem toDateOptNA_eq (d : Option DateVal) : toDateOptNA d = Except.ok (dateValOpt d) := by
  rcases d with _ | dv
  · rfl
  · rcases dv with t | _ <;> rfl

theorem toDateOpt_eq {d : Option DateVal} (h : d ≠ some DateVal.na) :
    toDateOpt d = Except.ok (dateValOpt d) := by
  rcases d with _ | dv
  · rfl
  · rcases dv with t | _
    · rfl
    · exact absurd rfl h

theorem resolved_dates_eq {a : AssetRec} (h1 : a.start_date ≠ some DateVal.na)
    (h2 : a.end_date ≠ some DateVal.na) :
    resolved_dates a = Except.ok (dateValOpt a.start_date, dateValOpt a.end_date,
      dateValOpt a.end_daily, dateValOpt a.end_minute) := by
  unfold resolved_dates
  rw [toDateOpt_eq h1]
  dsimp only
  rw [toDateOpt_eq h2]
  dsimp only
  rw [toDateOptNA_eq]
  dsimp only
  rw [toDateOptNA_eq]

theorem resolved_dates_na {a : AssetRec} (h : a.start_date = some DateVal.na) :
    resolved_dates a = Except.error PyErr.valueError := by
  unfold resolved_dates
  rw [h]
  rfl

theorem build_asset_resolved {name : Str} {remote locl : Option Catalog}
    {market : RawMarket} {a : AssetRec} {il : Bool}
    (hf : fetch_asset remote locl market.id = (some a, il))
    (h1 : a.start_date ≠ some DateVal.na) (h2 : a.end_date ≠ some DateVal.na) :
    build_asset name remote locl market
      = Except.ok { exchange := name,
                    data_source := if il then localStr else catalystStr,
                    exchange_symbol := market.id, symbol := a.symbol,
                    asset_name := a.asset_name,
                    start_date := dateValOpt a.start_date,
                    end_date := dateValOpt a.end_date,
                    end_daily := dateValOpt a.end_daily,
                    end_minute := dateValOpt a.end_minute,
                    leverage := a.leverage.getD 1 } := by
  unfold build_asset
  rw [hf]
  dsimp only
  rw [resolved_dates_eq h1 h2]

theorem build_asset_resolved_na {name : Str} {remote locl : Option Catalog}
    {market : RawMarket} {a : AssetRec} {il : Bool}
    (hf : fetch_asset remote locl market.id = (some a, il))
    (h : a.start_date = some DateVal.na) :
    build_asset name remote locl market = Except.error PyErr.valueError := by
  unfold build_asset
  rw [hf]
  dsimp only
  rw [resolved_dates_na h]

/-! ## Claim theorems: resolved-parameter carry-over (C5) -/

/-- Counterexample to claim C5: a catalog record whose `start_date` is the
sentinel `'N/A'` does not produce an entry with a null `start_date` — the
resolved branch only guards `end_daily`/`end_minute` against `'N/A'`, so the
sentinel reaches `pd.to_datetime`, which raises `ValueError` and aborts
`load_assets` altogether. -/
theorem ccxt_na_start_date_raises :
    load_assets ['g']
        (some [(['A'], { symbol := ['s'], start_date := some DateVal.na })]) none
        [{ id := ['A'], symbol := ['A', '/', 'B'] }]
      = Except.error PyErr.valueError := rfl

/-- Claim C5 as amended: for a market resolved from a catalog, the constructed
entry carries the record's `symbol`, display name, validity window and leverage
(leverage defaulting to 1.0 when absent; `end_daily`/`end_minute` null when
absent or `'N/A'`; `start_date`/`end_date` null when absent), and `data_source`
is the resolving catalog's label — but an `'N/A'` value in `start_date` (or
`end_date`) is passed to the date parser and raises `ValueError` instead of
yielding null. -/
theorem ccxt_resolved_params_carryover (name : Str) (remote locl : Option Catalog)
    (market : RawMarket) (a : AssetRec) (il : Bool)
    (hf : fetch_asset remote locl market.id = (some a, il)) :
    (a.start_date ≠ some DateVal.na → a.end_date ≠ some DateVal.na →
      load_assets name remote locl [market]
        = Except.ok [(market.id,
            { exchange := name,
              data_source := if il then localStr else catalystStr,
              exchange_symbol := market.id, symbol := a.symbol,
              asset_name := a.asset_name,
              start_date := dateValOpt a.start_date,
              end_date := dateValOpt a.end_date,
              end_daily := dateValOpt a.end_daily,
              end_minute := dateValOpt a.end_minute,
              leverage := a.leverage.getD 1 })]) ∧
    (a.start_date = some DateVal.na →
      load_assets name remote locl [market] = Except.error PyErr.valueError) := by
  constructor
  · intro h1 h2
    unfold load_assets
    rw [build_asset_resolved hf h1 h2]
    rfl
  · intro h
    unfold load_assets
    rw [build_asset_resolved_na hf h]

/-- Witness for C5 (amended) on a concrete catalog record carrying a parseable
`start_date`, an `'N/A'` `end_daily`, and an explicit leverage. -/
theorem ccxt_resolved_params_carryover_witness :
    load_assets ['g']
        (some [(['A'], { symbol := ['s'], start_date := some (DateVal.parseable 7),
                         end_daily := some DateVal.na, leverage := some 3 })]) none
        [{ id := ['A'], symbol := ['q'] }]
      = Except.ok [(['A'],
          { exchange := ['g'], data_source := catalystStr, exchange_symbol := ['A'],
            symbol := ['s'], asset_name := none, start_date := some 7,
            end_date := none, end_daily := none, end_minute := none,
            leverage := 3 })] :=
  (ccxt_resolved_params_carryover ['g']
      (some [(['A'], { symbol := ['s'], start_date := some (DateVal.parseable 7),
                       end_daily := some DateVal.na, leverage := some 3 })]) none
      { id := ['A'], symbol := ['q'] }
      { symbol := ['s'], start_date := some (DateVal.parseable 7),
        end_daily := some DateVal.na, leverage := some 3 } false rfl).1
    (by decide) (by decide)

/-! ## Claim theorems: totality of the asset table (C4) -/

/-- The inputs on which one market's `TradingPair` construction cannot raise:
a catalog-resolved asset must not carry the `'N/A'` sentinel in
`start_date`/`end_date` (claim C5 records that those raise), and an unresolved
market's native symbol must split on `'/'` into at least two parts. -/
def resolvable_okB (remote locl : Option Catalog) (m : RawMarket) : Bool :=
  match fetch_asset remote locl m.id with
  | (some a, _) =>
    decide (a.start_date ≠ some DateVal.na) && decide (a.end_date ≠ some DateVal.na)
  | (none, _) => decide (2 ≤ (pySplit '/' m.symbol).length)

theorem fetch_asset_local_snd (remote locl : Option Catalog) (id : Str) :
    (fetch_asset_local remote locl id).snd = true := by
  unfold fetch_asset_local
  dsimp only [fetch_symbol_map]
  cases locl with
  | none => rfl
  | some m =>
    dsimp only
    cases dictGet (lowerKeys m) (pyLower id) <;> rfl

theorem fetch_asset_none_true {remote locl : Option Catalog} {id : Str} {il : Bool}
    (h : fetch_asset remote locl id = (none, il)) : il = true := by
  unfold fetch_asset at h
  dsimp only [fetch_symbol_map] at h
  cases remote with
  | none =>
    have := congrArg Prod.snd h
    rw [fetch_asset_local_snd] at this
    exact this.symm
  | some m =>
    dsimp only at h
    rcases hd : dictGet (lowerKeys m) (pyLower id) with _ | a <;> rw [hd] at h <;>
      dsimp only at h
    · have := congrArg Prod.snd h
      rw [fetch_asset_local_snd] at this
      exact this.symm
    · have := congrArg Prod.fst h
      exact Option.noConfusion this

theorem build_asset_ok {name : Str} {remote locl : Option Catalog} {m : RawMarket}
    (h : resolvable_okB remote locl m = true) :
    ∃ tp, build_asset name remote locl m = Except.ok tp := by
  unfold resolvable_okB at h
  rcases hf : fetch_asset remote locl m.id with ⟨oa, il⟩
  rw [hf] at h
  cases oa with
  | some a =>
    dsimp only at h
    rw [Bool.and_eq_true, decide_eq_true_eq, decide_eq_true_eq] at h
    exact ⟨_, build_asset_resolved hf h.1 h.2⟩
  | none =>
    dsimp only at h
    rw [decide_eq_true_eq] at h
    have hil := fetch_asset_none_true hf
    subst hil
    rcases hs : pySplit '/' m.symbol with _ | ⟨p0, _ | ⟨p1, ps⟩⟩
    · rw [hs] at h; simp at h
    · rw [hs] at h; simp at h
    · exact ⟨_, build_asset_unresolved hf hs⟩

theorem countP_eq_one_of_nodup_mem {l : List Str} (hnd : l.Nodup) {x : Str}
    (hx : x ∈ l) : l.countP (fun k => decide (k = x)) = 1 := by
  induction l with
  | nil => exact absurd hx (List.not_mem_nil x)
  | cons y ys ih =>
    rw [List.countP_cons]
    rcases List.mem_cons.mp hx with rfl | hmem
    · have hy : x ∉ ys := (List.nodup_cons.mp hnd).1
      have hz : ys.countP (fun k => decide (k = x)) = 0 := by
        rw [List.countP_eq_zero]
        intro a ha hpa
        rw [decide_eq_true_eq] at hpa
        exact hy (hpa ▸ ha)
      simp [hz]
    · have hyx : y ≠ x := by
        rintro rfl
        exact (List.nodup_cons.mp hnd).1 hmem
      rw [ih (List.nodup_cons.mp hnd).2 hmem]
      simp [hyx]

theorem load_assets_ok_keys (name : Str) (remote locl : Option Catalog) :
    ∀ markets : List RawMarket,
      (∀ m ∈ markets, resolvable_okB remote locl m = true) →
      ∃ table, load_assets name remote locl markets = Except.ok table ∧
        table.map Prod.fst = markets.map RawMarket.id := by
  intro markets
  induction markets with
  | nil => exact fun _ => ⟨[], rfl, rfl⟩
  | cons m rest ih =>
    intro hok
    obtain ⟨tp, htp⟩ := build_asset_ok (hok m (List.mem_cons_self _ _))
    obtain ⟨tbl, htbl, hkeys⟩ := ih (fun x hx => hok x (List.mem_cons_of_mem _ hx))
    refine ⟨(m.id, tp) :: tbl, ?_, ?_⟩
    · unfold load_assets
      rw [htp]
      dsimp only
      rw [htbl]
    · simp [hkeys]

/-- Counterexample to claim C4: asset-table construction is not total
unconditionally.  First input: a market absent from both catalogs whose native
symbol contains no `'/'` — resolution degrades to the synthesis path as
claimed, but the synthesis itself (`parts[1]` of the `'/'`-split) raises
`IndexError`, so `load_assets` produces no table at all.  Second input: a
market resolved from a catalog record whose `end_date` is the `'N/A'`
sentinel — the unguarded `pd.to_datetime` raises `ValueError`.  In both runs
`len(asset_table) == len(raw_markets)` fails because construction aborts. -/
theorem ccxt_load_assets_not_total :
    load_assets ['g'] none none [{ id := ['A'], symbol := ['A'] }]
      = Except.error PyErr.indexError ∧
    load_assets ['g']
        (some [(['B'], { symbol := ['s'], end_date := some DateVal.na })]) none
        [{ id := ['B'], symbol := ['q'] }]
      = Except.error PyErr.valueError :=
  ⟨rfl, rfl⟩

/-- Claim C4 as amended: asset-table construction is total over every market
list whose per-market construction avoids the two recorded crashes — every
catalog-resolved record is free of the `'N/A'` sentinel in
`start_date`/`end_date`, and every unresolved market's native symbol splits on
`'/'` into at least two parts — and whose market ids are distinct (the
exchange's market listing is keyed by id).  Then `load_assets` succeeds, the
table keys are exactly the listed ids, the dict holds `len(raw_markets)`
entries, and every listed market id keys exactly one entry.  Resolution
failure itself never raises — an unresolved market reaches the synthesis path
(`build_asset_unresolved`) rather than propagating an error. -/
theorem ccxt_load_assets_total (name : Str) (remote locl : Option Catalog)
    (markets : List RawMarket)
    (hok : ∀ m ∈ markets, resolvable_okB remote locl m = true)
    (hnd : (markets.map RawMarket.id).Nodup) :
    ∃ table, load_assets name remote locl markets = Except.ok table ∧
      table.map Prod.fst = markets.map RawMarket.id ∧
      pyDictSize table = markets.length ∧
      ∀ m ∈ markets, (table.map Prod.fst).countP (fun k => decide (k = m.id)) = 1 := by
  obtain ⟨table, hload, hkeys⟩ := load_assets_ok_keys name remote locl markets hok
  refine ⟨table, hload, hkeys, ?_, ?_⟩
  · unfold pyDictSize
    rw [hkeys, List.dedup_eq_self.mpr hnd, List.length_map]
  · intro m hm
    rw [hkeys]
    exact countP_eq_one_of_nodup_mem hnd (List.mem_map_of_mem _ hm)

/-- Witness for C4 on a two-market listing: one market resolved from the remote
catalog, one synthesized. -/
theorem ccxt_load_assets_total_witness :
    ∃ table,
      load_assets ['g'] (some [(['A'], { symbol := ['s'] })]) none
          [{ id := ['A'], symbol := ['s'] }, { id := ['B'], symbol := ['x', '/', 'y'] }]
        = Except.ok table ∧
      table.map Prod.fst = [['A'], ['B']] ∧
      pyDictSize table = 2 ∧
      ∀ m ∈ ([{ id := ['A'], symbol := ['s'] },
              { id := ['B'], symbol := ['x', '/', 'y'] }] : List RawMarket),
        (table.map Prod.fst).countP (fun k => decide (k = m.id)) = 1 :=
  ccxt_load_assets_total ['g'] (some [(['A'], { symbol := ['s'] })]) none
    [{ id := ['A'], symbol := ['s'] }, { id := ['B'], symbol := ['x', '/', 'y'] }]
    (by decide) (by decide)

/-! ## Claim theorems: asset-table key consistency (C10) -/

theorem build_asset_fields {name : Str} {remote locl : Option Catalog}
    {market : RawMarket} {tp : TradingPair}
    (h : build_asset name remote locl market = Except.ok tp) :
    tp.exchange_symbol = market.id ∧ tp.exchange = name := by
  unfold build_asset at h
  rcases hf : fetch_asset remote locl market.id with ⟨oa, il⟩
  rw [hf] at h
  cases oa with
  | some a =>
    dsimp only at h
    rcases hd : resolved_dates a with e | r <;> rw [hd] at h <;> dsimp only at h
    · exact Except.noConfusion h
    · obtain ⟨sd, ed, edl, emn⟩ := r
      injection h with h2
      subst h2
      exact ⟨rfl, rfl⟩
  | none =>
    dsimp only at h
    rcases hs : get_catalyst_symbol market.symbol with e | sym <;> rw [hs] at h <;>
      dsimp only at h
    · exact Except.noConfusion h
    · injection h with h2
      subst h2
      exact ⟨rfl, rfl⟩

/-- Claim C10: every entry of the constructed asset table is stored under its
own raw exchange market id (`exchange_symbol` equals the table key), and its
`exchange` field is the adapter's exchange name — for catalog-resolved and
synthesized entries alike. -/
theorem ccxt_asset_table_key_consistency (name : Str) (remote locl : Option Catalog)
    (markets : List RawMarket) (table : List (Str × TradingPair))
    (h : load_assets name remote locl markets = Except.ok table) :
    ∀ kv ∈ table, kv.2.exchange_symbol = kv.1 ∧ kv.2.exchange = name := by
  induction markets generalizing table with
  | nil =>
    unfold load_assets at h
    injection h with h2
    subst h2
    intro kv hkv
    exact absurd hkv (List.not_mem_nil kv)
  | cons m rest ih =>
    unfold load_assets at h
    rcases hb : build_asset name remote locl m with e | tp <;> rw [hb] at h <;>
      dsimp only at h
    · exact Except.noConfusion h
    · rcases hr : load_assets name remote locl rest with e | tbl <;> rw [hr] at h <;>
        dsimp only at h
      · exact Except.noConfusion h
      · injection h with h2
        subst h2
        intro kv hkv
        rcases List.mem_cons.mp hkv with rfl | hmem
        · exact build_asset_fields hb
        · exact ih tbl hr kv hmem

/-- Witness for C10 on a synthesized entry. -/
theorem ccxt_asset_table_key_consistency_witness :
    (({ exchange := ['g'], data_source := localStr, exchange_symbol := ['A'],
        symbol := ['b', '_', 'c'] } : TradingPair)).exchange_symbol = ['A'] ∧
    (({ exchange := ['g'], data_source := localStr, exchange_symbol := ['A'],
        symbol := ['b', '_', 'c'] } : TradingPair)).exchange = ['g'] :=
  ccxt_asset_table_key_consistency ['g'] none none
    [{ id := ['A'], symbol := ['B', '/', 'C'] }]
    [(['A'], { exchange := ['g'], data_source := localStr, exchange_symbol := ['A'],
               symbol := ['b', '_', 'c'] })] rfl
    (['A'], { exchange := ['g'], data_source := localStr, exchange_symbol := ['A'],
              symbol := ['b', '_', 'c'] })
    (List.mem_singleton.mpr rfl)

/-! ## Claim theorem: candles fetch only the first asset (C9) -/

/-- Claim C9: for a non-empty asset list (whose symbols the codec accepts and
whose frequency translates), `get_candles` queries the exchange once, for the
first asset's native symbol only, and returns exactly the per-row normalization
of that single response — assets after the first contribute nothing. -/
theorem ccxt_candles_first_asset_only
    (api : Str → Str → Int → Option Int → List OhlcvRow)
    (freq : Str) (a : Str) (rest : List Str) (s0 : Str) (syms : List Str) (tf : Str)
    (bar_count : Option Int) (start_sec : Int)
    (h1 : get_symbol a = Except.ok s0)
    (h2 : get_symbols rest = Except.ok syms)
    (h3 : get_timeframe freq = Except.ok tf) :
    get_candles api freq (a :: rest) bar_count start_sec
      = Except.ok ((api s0 tf (start_sec * 1000) bar_count).map rowToCandle) := by
  have hs : get_symbols (a :: rest) = Except.ok (s0 :: syms) := by
    unfold get_symbols
    rw [h1]
    dsimp only
    rw [h2]
  unfold get_candles
  rw [hs]
  dsimp only
  rw [h3]

/-- Witness for C9: a two-asset request returns exactly the candles of the
first asset's response. -/
theorem ccxt_candles_first_asset_only_witness :
    get_candles (fun _ _ _ _ => [{ ts := 5, o := 1, h := 2, l := 3, c := 4, v := 6 }])
        ['5', 'm'] [['b', 't', 'c', '_', 'u', 's', 'd'], ['e', 't', 'h', '_', 'b', 't', 'c']]
        none 0
      = Except.ok [{ last_traded := 5, open_ := 1, high := 2, low := 3,
                     close := 4, volume := 6 }] :=
  ccxt_candles_first_asset_only
    (fun _ _ _ _ => [{ ts := 5, o := 1, h := 2, l := 3, c := 4, v := 6 }])
    ['5', 'm'] ['b', 't', 'c', '_', 'u', 's', 'd'] [['e', 't', 'h', '_', 'b', 't', 'c']]
    ['B', 'T', 'C', '/', 'U', 'S', 'D'] [['E', 'T', 'H', '/', 'B', 'T', 'C']] ['5', 'm']
    none 0 rfl rfl rfl

end CCXTAdapter
